import Mathlib

/-!
Shallow embedding of the listic-lite recipe shopping-list agent.

The repository drives an LLM agent over a fixed set of tools
(src/ai_agent/tools.py), orchestrated by src/ai_agent/agent.py, with the
Playwright page fetch in src/ai_agent/tasks.py and the pydantic record
shapes in src/ai_agent/data_models.py.

External effects (the hosted chat model, Python's float() parser, the
Playwright browser, BeautifulSoup text extraction) are modelled as
explicit function parameters ("oracles"); Python floats are modelled as
rationals; Python exceptions are modelled with an explicit error type.
Each LLM-calling tool additionally returns the log of model invocations
it performed (one entry per chain.ainvoke, carrying that call's input
payload), so that claims about the number of model calls are statements
about the log's length.
-/

namespace ListicLite

/-- Python exceptions: ValueError is distinguished because the tools raise
and document it explicitly; every other exception is carried as a message. -/
inductive PyError where
  | valueError (msg : String)
  | other (msg : String)
deriving Repr, DecidableEq

/-- data_models.Ingredient: name / quantity (a string) / unit. -/
structure Ingredient where
  name : String
  quantity : String
  unit : String
deriving Repr, DecidableEq

/-- data_models.IngredientsOutput: one recipe's extracted ingredient list. -/
structure IngredientsOutput where
  ingredients : List Ingredient
deriving Repr, DecidableEq

/-- data_models.ConsolidatedIngredientOutput (Python float as ℚ). -/
structure ConsolidatedIngredientOutput where
  name : String
  quantity : ℚ
  unit : String
deriving Repr, DecidableEq

/-- The raw dict produced by the JSON parser in handle_unknown_units before
validation: quantity is none when missing or non-numeric, unit/explanation
are none when missing (result.get returning None). -/
structure RawUnitConversion where
  quantity : Option ℚ
  unit : Option String
  explanation : Option String
deriving Repr, DecidableEq

/-! ### tasks.py: fetch_recipe_from_url -/

/-- Outcome of the Playwright interaction for one URL: page.goto raised
(timeout or load failure), the surrounding playwright block raised, or the
page produced (possibly empty) HTML content. -/
inductive FetchOutcome where
  | gotoFailed (reason : String)
  | launchFailed (reason : String)
  | pageContent (html : String)
deriving Repr, DecidableEq

/-- tasks.fetch_recipe_from_url: the browser outcome and the BeautifulSoup
recipe-container text extraction are abstract parameters. -/
def fetch_recipe_from_url (extractText : String → String) (outcome : FetchOutcome)
    (url : String) : String :=
  match outcome with
  | .gotoFailed _ =>
      "Error: Could not fetch content from " ++ url ++ ". Reason: Page load failed or timed out."
  | .launchFailed e =>
      "Error: Could not fetch content from " ++ url ++ ". Reason: " ++ e
  | .pageContent html =>
      if html = "" then "Error: No content fetched from " ++ url
      else extractText html

/-- The per-call page-load timeout passed to page.goto in tasks.py, in
milliseconds. -/
def page_goto_timeout_ms : Nat := 60000

/-! ### tools.py: fetch_recipes_from_urls, extract_ingredients -/

/-- tools.fetch_recipes_from_urls: asyncio.gather of one independent
fetch_recipe_from_url task per URL; the tasks share no state, so the gather
is the list of the per-URL results in order. -/
def fetch_recipes_from_urls (extractText : String → String)
    (outcomes : String → FetchOutcome) (urls : List String) : List String :=
  urls.map (fun url => fetch_recipe_from_url extractText (outcomes url) url)

/-- tools.extract_ingredients: builds one prompt chain per recipe text and
gathers one chain.ainvoke per recipe text. Returns the parsed outputs and
the model-call log (one entry per invocation, carrying its recipe_text). -/
def extract_ingredients (oracle : String → IngredientsOutput)
    (recipe_texts : List String) : List IngredientsOutput × List String :=
  (recipe_texts.map (fun recipe_text => oracle recipe_text), recipe_texts)

/-! ### tools.py: unify_ingredient_names -/

/-- A Python dict built from a list of (original_name, target_name) items by
comprehension: a later item with the same key overwrites an earlier one. -/
def dictLookup (m : List (String × String)) (k : String) : Option String :=
  (m.reverse.find? (fun p => p.1 == k)).map Prod.snd

/-- Renaming step of unify_ingredient_names: replace the name when it occurs
as a key of the unified-names mapping, keep the ingredient otherwise. -/
def applyNameMap (m : List (String × String)) (ing : Ingredient) : Ingredient :=
  match dictLookup m ing.name with
  | some t => Ingredient.mk t ing.quantity ing.unit
  | none => ing

/-- The payload sent to the model by unify_ingredient_names: the set of all
ingredient names joined with newlines (the Python set modelled as dedup). -/
def unify_payload (ingredient_list : List IngredientsOutput) : String :=
  String.intercalate "\n" (((ingredient_list.flatMap (·.ingredients)).map (·.name)).dedup)

/-- tools.unify_ingredient_names: collect the set of all ingredient names;
if it is empty, return the input unchanged with no model call; otherwise
make exactly one model call and rename every ingredient whose name appears
as an original_name in the returned mapping. -/
def unify_ingredient_names (oracle : String → List (String × String))
    (ingredient_list : List IngredientsOutput) : List IngredientsOutput × List String :=
  if ((ingredient_list.flatMap (·.ingredients)).map (·.name)).dedup.isEmpty then
    (ingredient_list, [])
  else
    (ingredient_list.map (fun ro =>
       IngredientsOutput.mk
         (ro.ingredients.map (applyNameMap (oracle (unify_payload ingredient_list))))),
     [unify_payload ingredient_list])

/-! ### tools.py: group_by_ingredient_name -/

/-- defaultdict(list)[ingredient.name].append(ingredient): append to the
entry with this key (dict keys are unique, so the first match is the only
match), or add a new key at the end, preserving insertion order. -/
def dictAppend : List (String × List Ingredient) → Ingredient → List (String × List Ingredient)
  | [], ing => [(ing.name, [ing])]
  | p :: acc, ing =>
    if p.1 = ing.name then (p.1, p.2 ++ [ing]) :: acc
    else p :: dictAppend acc ing

/-- Dictionary access on the association-list model of the Python dict. -/
def dictFind (acc : List (String × List Ingredient)) (n : String) : Option (List Ingredient) :=
  (acc.find? (fun p => p.1 == n)).map Prod.snd

/-- tools.group_by_ingredient_name. -/
def group_by_ingredient_name (ingredients_list : List IngredientsOutput) :
    List (String × List Ingredient) :=
  (ingredients_list.flatMap (·.ingredients)).foldl dictAppend []

/-! ### tools.py: select_examples -/

/-- A regex word character for re.findall(r"\w+", ...): alphanumeric or
underscore. -/
def isWordChar (c : Char) : Bool := c.isAlphanum || c = '_'

/-- Maximal runs of word characters in a character list. -/
def wordsOfChars : List Char → List String
  | [] => []
  | c :: cs =>
    if isWordChar c then
      String.mk (c :: cs.takeWhile isWordChar) :: wordsOfChars (cs.dropWhile isWordChar)
    else wordsOfChars cs
termination_by l => l.length
decreasing_by
  · exact Nat.lt_succ_of_le (List.dropWhile_sublist isWordChar).length_le
  · exact Nat.lt_succ_self _

/-- re.findall(r"\w+", s.lower()) over the string's characters. -/
def findWords (s : String) : List String := wordsOfChars s.toLower.data

/-- The Python set of a string's words, modelled as the deduplicated list. -/
def wordSet (s : String) : List String := (findWords s).dedup

/-- One entry of UNIT_CONSOLIDATION_EXAMPLES / UNIT_CONVERSION_EXAMPLES. -/
structure PromptExample where
  input : String
  output : String
  explanation : String
deriving Repr, DecidableEq

/-- score_example in tools.select_examples:
len(target_words.intersection(example_words)). -/
def score_example (target_words : List String) (e : PromptExample) : Nat :=
  (target_words.filter (fun w => decide (w ∈ wordSet e.input))).length

/-- The sort key relation used by sorted(examples, key=score_example,
reverse=True): descending score. -/
def scoreGe (target_words : List String) (a b : PromptExample) : Prop :=
  score_example target_words b ≤ score_example target_words a

instance (tw : List String) : DecidableRel (scoreGe tw) :=
  fun a b => Nat.decLe (score_example tw b) (score_example tw a)

instance (tw : List String) : IsTotal PromptExample (scoreGe tw) :=
  ⟨fun a b => Nat.le_total (score_example tw b) (score_example tw a)⟩

instance (tw : List String) : IsTrans PromptExample (scoreGe tw) :=
  ⟨fun _ _ _ h1 h2 => Nat.le_trans h2 h1⟩

/-- tools.select_examples: Python's stable sorted(...) by score descending
(modelled with the stable insertion sort), then the first n. -/
def select_examples (target_input : String) (examples : List PromptExample)
    (n : Nat) : List PromptExample :=
  (examples.insertionSort (scoreGe (wordSet target_input))).take n

/-- select_examples with its default argument n = 3. -/
def select_examples_default (target_input : String) (examples : List PromptExample) :
    List PromptExample :=
  select_examples target_input examples 3

/-! ### tools.py: handle_unknown_units -/

/-- The f-string f"{quantity_str} {unit_str} {ingredient_name}".strip(). -/
def handle_description (ingredient_name quantity_str unit_str : String) : String :=
  (quantity_str ++ " " ++ unit_str ++ " " ++ ingredient_name).trim

/-- The message of a Python exception as interpolated by str(e). -/
def PyError.msg : PyError → String
  | .valueError m => m
  | .other m => m

/-- The Python return value of handle_unknown_units: either the validated
conversion dict, or a dict with an 'error' key (the function never raises). -/
inductive HandleUnknownResult where
  | ok (r : RawUnitConversion)
  | errorDict (msg : String)
deriving Repr, DecidableEq

/-- tools.handle_unknown_units: one few-shot model call; a model failure or
a validation failure (non-numeric quantity, or unit not in g or ml) is
caught and turned into a dict with an 'error' key instead of raising. -/
def handle_unknown_units (oracle : String → Except PyError RawUnitConversion)
    (ingredient_name quantity_str unit_str : String) : HandleUnknownResult :=
  let input_description := handle_description ingredient_name quantity_str unit_str
  match oracle input_description with
  | .error e =>
      .errorDict ("Failed to convert units for '" ++ input_description ++ "'. Reason: " ++ e.msg)
  | .ok r =>
      if r.quantity.isSome && (r.unit == some "g" || r.unit == some "ml") then .ok r
      else
        .errorDict ("Failed to convert units for '" ++ input_description ++
          "'. Reason: LLM returned invalid quantity or unit.")

/-! ### tools.py: consolidate_units -/

/-- The f-string input_description built by consolidate_units from a
non-empty ingredient list (first element supplies the name casing). -/
def consolidate_description : List Ingredient → String
  | [] => ""
  | first :: rest =>
      first.name ++ ": " ++
        String.intercalate ", " ((first :: rest).map (fun ing => ing.quantity ++ " " ++ ing.unit))

/-- tools.consolidate_units: validates that the list is non-empty and that
all names agree case-insensitively (raising ValueError otherwise, before any
model call); then makes exactly one model call whose failure is re-raised to
the caller. The second component is the model-call log. -/
def consolidate_units (oracle : String → Except PyError ConsolidatedIngredientOutput) :
    List Ingredient → Except PyError ConsolidatedIngredientOutput × List String
  | [] => (.error (.valueError "Input list of ingredients cannot be empty."), [])
  | first :: rest =>
    if (first :: rest).all (fun ing => ing.name.toLower == first.name.toLower) then
      (oracle (consolidate_description (first :: rest)), [consolidate_description (first :: rest)])
    else
      (.error (.valueError "All ingredients passed to consolidate_units must have the same name."),
       [])

/-! ### tools.py: sum_quantities -/

/-- tools.sum_quantities: float(q1) + float(q2), with Python's float()
parser an abstract parameter; a parse failure of either quantity raises
ValueError with the tool's message. -/
def sum_quantities (parseFloat : String → Option ℚ) (ingredient1 ingredient2 : Ingredient) :
    Except PyError ℚ :=
  match parseFloat ingredient1.quantity, parseFloat ingredient2.quantity with
  | some a, some b => .ok (a + b)
  | _, _ =>
      .error (.valueError
        "Cannot parse quantity. Ensure both ingredients have valid numeric quantities.")

/-! ### tools.py registry and agent.py -/

/-- The `tools` list at the bottom of tools.py, in order: these are the only
tools registered with the AgentExecutor. -/
def registeredToolNames : List String :=
  ["fetch_recipes_from_urls", "extract_ingredients", "unify_ingredient_names",
   "consolidate_units", "handle_unknown_units", "group_by_ingredient_name", "sum_quantities"]

/-- The tool names the run_agent instruction prompt in agent.py tells the
model to use, in order of first mention (steps 1-8 of the prompt). -/
def agentPromptToolMentions : List String :=
  ["fetch_recipes_from_urls", "extract_ingredients", "unify_ingredient_names",
   "group_by_ingredient_name", "handle_unknown_units", "sum_quantities",
   "consolidate_units", "generate_audio_for_list"]

/-- The AgentExecutor configuration built by agent.run_agent: fields are
verbose, handle_parsing_errors, max_iterations, and the registered tools. -/
structure AgentExecutorConfig where
  verbose : Bool
  handle_parsing_errors : Bool
  max_iterations : Nat
  tools : List String
deriving Repr, DecidableEq

/-- agent.run_agent: returns none when it exits early on empty input,
otherwise the configuration of the AgentExecutor it invokes
(verbose=True, handle_parsing_errors=True, max_iterations=50, tools=tools). -/
def run_agent (user_inputs : List String) : Option AgentExecutorConfig :=
  if user_inputs.isEmpty then none
  else some ⟨true, true, 50, registeredToolNames⟩

/-! ## Shared helper lemmas -/

/-- When the validation of consolidate_units passes (non-empty, case-insensitively
same-named), it performs exactly the single model call on the formatted description. -/
theorem consolidate_units_proceeds
    (oracle : String → Except PyError ConsolidatedIngredientOutput)
    (first : Ingredient) (rest : List Ingredient)
    (h : ∀ ing ∈ first :: rest, ing.name.toLower = first.name.toLower) :
    consolidate_units oracle (first :: rest) =
      (oracle (consolidate_description (first :: rest)),
       [consolidate_description (first :: rest)]) := by
  have hc : (first :: rest).all (fun ing => ing.name.toLower == first.name.toLower) = true := by
    simpa [List.all_eq_true] using h
  simp only [consolidate_units, if_pos hc]

/-! ## Claims -/

/-- C1: The run_agent prompt (step 8) instructs the agent to call a
generate_audio_for_list tool saving the list as shopping_list.mp3, but the
tools registry in tools.py does not contain any such tool, and the
AgentExecutor built by run_agent therefore cannot invoke it: the registered
tools are exactly the seven in registeredToolNames. -/
theorem c1_generate_audio_tool_unregistered :
    "generate_audio_for_list" ∈ agentPromptToolMentions ∧
    "generate_audio_for_list" ∉ registeredToolNames ∧
    run_agent ["recipe text"] =
      some (AgentExecutorConfig.mk true true 50 registeredToolNames) := by
  refine ⟨by decide, by decide, rfl⟩

/-- C3: sum_quantities is a naive float addition: when both quantity strings
parse, the result is exactly the sum of the two parsed values, and it raises
ValueError if and only if at least one of the two quantity strings does not
parse as a float. -/
theorem c3_sum_quantities_naive_addition (parseFloat : String → Option ℚ)
    (ingredient1 ingredient2 : Ingredient) :
    (∀ a b : ℚ, parseFloat ingredient1.quantity = some a →
        parseFloat ingredient2.quantity = some b →
        sum_quantities parseFloat ingredient1 ingredient2 = .ok (a + b)) ∧
    ((∃ msg, sum_quantities parseFloat ingredient1 ingredient2 = .error (.valueError msg)) ↔
      parseFloat ingredient1.quantity = none ∨ parseFloat ingredient2.quantity = none) := by
  constructor
  · intro a b ha hb
    simp [sum_quantities, ha, hb]
  · constructor
    · rintro ⟨msg, hmsg⟩
      by_contra hno
      push_neg at hno
      obtain ⟨a, ha⟩ := Option.ne_none_iff_exists'.mp hno.1
      obtain ⟨b, hb⟩ := Option.ne_none_iff_exists'.mp hno.2
      simp [sum_quantities, ha, hb] at hmsg
    · intro h
      unfold sum_quantities
      rcases h with h | h
      · rw [h]
        cases parseFloat ingredient2.quantity <;> exact ⟨_, rfl⟩
      · rw [h]
        cases parseFloat ingredient1.quantity <;> exact ⟨_, rfl⟩

/-- C3 witness: two parsing quantities sum to their float sum. -/
theorem c3_sum_quantities_naive_addition_witness :
    sum_quantities (fun s => if s = "2" then some 2 else if s = "3" then some 3 else none)
      (Ingredient.mk "mąka" "2" "g") (Ingredient.mk "mąka" "3" "g") = .ok (5 : ℚ) := by
  have h := (c3_sum_quantities_naive_addition
    (fun s => if s = "2" then some 2 else if s = "3" then some 3 else none)
    (Ingredient.mk "mąka" "2" "g") (Ingredient.mk "mąka" "3" "g")).1 2 3 (by decide) (by decide)
  rw [h]
  norm_num

/-- C4: consolidate_units operates on one ingredient's entries only: it raises
ValueError on an empty list and on case-insensitively mismatched names (before
any model call), and exactly the same-named non-empty lists proceed to the
single consolidating model call on the formatted description. -/
theorem c4_consolidate_units_validation
    (oracle : String → Except PyError ConsolidatedIngredientOutput) :
    consolidate_units oracle [] =
      (.error (.valueError "Input list of ingredients cannot be empty."), []) ∧
    (∀ first rest, ¬ (∀ ing ∈ first :: rest, ing.name.toLower = first.name.toLower) →
      consolidate_units oracle (first :: rest) =
        (.error (.valueError
          "All ingredients passed to consolidate_units must have the same name."), [])) ∧
    (∀ first rest, (∀ ing ∈ first :: rest, ing.name.toLower = first.name.toLower) →
      consolidate_units oracle (first :: rest) =
        (oracle (consolidate_description (first :: rest)),
         [consolidate_description (first :: rest)])) := by
  refine ⟨rfl, ?_, fun first rest h => consolidate_units_proceeds oracle first rest h⟩
  intro first rest h
  have hc : ¬ ((first :: rest).all (fun ing => ing.name.toLower == first.name.toLower) = true) := by
    simpa [List.all_eq_true] using h
  simp only [consolidate_units, if_neg hc]

/-- C4 witness: a same-named pair proceeds to one model call and produces the
single consolidated output. -/
theorem c4_consolidate_units_validation_witness :
    consolidate_units (fun _ => .ok (ConsolidatedIngredientOutput.mk "Cebula" 5 "szt."))
      [Ingredient.mk "Cebula" "4" "szt.", Ingredient.mk "Cebula" "0.5" "szt."] =
      (.ok (ConsolidatedIngredientOutput.mk "Cebula" 5 "szt."),
       [consolidate_description
         [Ingredient.mk "Cebula" "4" "szt.", Ingredient.mk "Cebula" "0.5" "szt."]]) :=
  (c4_consolidate_units_validation
    (fun _ => .ok (ConsolidatedIngredientOutput.mk "Cebula" 5 "szt."))).2.2
    (Ingredient.mk "Cebula" "4" "szt.") [Ingredient.mk "Cebula" "0.5" "szt."]
    (by
      intro ing hing
      rcases List.mem_cons.mp hing with rfl | hing
      · rfl
      · rcases List.mem_cons.mp hing with rfl | hing
        · rfl
        · exact absurd hing (List.not_mem_nil ing))

/-- C5: per-call failure handling: a failed page load, a failed browser run or
an empty page yields an 'Error:'-prefixed placeholder string from
fetch_recipe_from_url instead of raising; a failed unit conversion makes
handle_unknown_units return a dict with an 'error' key instead of raising; and
a failure of the model call inside consolidate_units is re-raised unchanged to
the caller. -/
theorem c5_failure_handling (extractText : String → String) (url reason : String)
    (hOracle : String → Except PyError RawUnitConversion)
    (ingredient_name quantity_str unit_str : String)
    (cOracle : String → Except PyError ConsolidatedIngredientOutput) :
    (∃ rest, fetch_recipe_from_url extractText (.gotoFailed reason) url = "Error:" ++ rest) ∧
    (∃ rest, fetch_recipe_from_url extractText (.launchFailed reason) url = "Error:" ++ rest) ∧
    (∃ rest, fetch_recipe_from_url extractText (.pageContent "") url = "Error:" ++ rest) ∧
    (∀ e, hOracle (handle_description ingredient_name quantity_str unit_str) = .error e →
      ∃ msg, handle_unknown_units hOracle ingredient_name quantity_str unit_str =
        .errorDict msg) ∧
    (∀ (first : Ingredient) rest e,
      (∀ ing ∈ first :: rest, ing.name.toLower = first.name.toLower) →
      cOracle (consolidate_description (first :: rest)) = .error e →
      (consolidate_units cOracle (first :: rest)).1 = .error e) := by
  refine ⟨?_, ?_, ?_, ?_, ?_⟩
  · refine ⟨" Could not fetch content from " ++ (url ++
      ". Reason: Page load failed or timed out."), ?_⟩
    show "Error: Could not fetch content from " ++ url ++
      ". Reason: Page load failed or timed out." = _
    rw [String.append_assoc]
    rw [show "Error: Could not fetch content from " =
      "Error:" ++ " Could not fetch content from " from by decide]
    rw [String.append_assoc]
  · refine ⟨" Could not fetch content from " ++ (url ++ (". Reason: " ++ reason)), ?_⟩
    show "Error: Could not fetch content from " ++ url ++ ". Reason: " ++ reason = _
    rw [String.append_assoc, String.append_assoc]
    rw [show "Error: Could not fetch content from " =
      "Error:" ++ " Could not fetch content from " from by decide]
    rw [String.append_assoc]
  · refine ⟨" No content fetched from " ++ url, ?_⟩
    show "Error: No content fetched from " ++ url = _
    rw [show "Error: No content fetched from " =
      "Error:" ++ " No content fetched from " from by decide]
    rw [String.append_assoc]
  · intro e he
    refine ⟨"Failed to convert units for '" ++
      handle_description ingredient_name quantity_str unit_str ++ "'. Reason: " ++ e.msg, ?_⟩
    simp only [handle_unknown_units, he]
  · intro first rest e hsame herr
    rw [consolidate_units_proceeds cOracle first rest hsame]
    exact herr

/-- C5 witness: a failing conversion model call produces an error dict, and a
failing consolidation model call is re-raised. -/
theorem c5_failure_handling_witness :
    (∃ msg, handle_unknown_units (fun _ => .error (.other "boom")) "apple" "half" "an" =
      .errorDict msg) ∧
    (consolidate_units (fun _ => .error (.other "parse failed"))
      [Ingredient.mk "Sól" "1" "pinch"]).1 = .error (.other "parse failed") := by
  refine ⟨?_, ?_⟩
  · exact (c5_failure_handling (fun s => s) "u" "r" (fun _ => .error (.other "boom"))
      "apple" "half" "an" (fun _ => .error (.other "parse failed"))).2.2.2.1
      (.other "boom") rfl
  · exact (c5_failure_handling (fun s => s) "u" "r" (fun _ => .error (.other "boom"))
      "apple" "half" "an" (fun _ => .error (.other "parse failed"))).2.2.2.2
      (Ingredient.mk "Sól" "1" "pinch") [] (.other "parse failed")
      (by simp) rfl

/-- C6: whenever run_agent executes the agent, the AgentExecutor is configured
with the fixed iteration cap max_iterations = 50 and with
handle_parsing_errors enabled, so the orchestration loop is bounded. -/
theorem c6_bounded_agent_loop (user_inputs : List String) (cfg : AgentExecutorConfig)
    (h : run_agent user_inputs = some cfg) :
    cfg.max_iterations = 50 ∧ cfg.handle_parsing_errors = true := by
  unfold run_agent at h
  split at h
  · cases h
  · exact (Option.some.inj h) ▸ ⟨rfl, rfl⟩

/-- C6 witness: a non-empty input runs the agent with the capped executor. -/
theorem c6_bounded_agent_loop_witness :
    (AgentExecutorConfig.mk true true 50 registeredToolNames).max_iterations = 50 ∧
    (AgentExecutorConfig.mk true true 50 registeredToolNames).handle_parsing_errors = true :=
  c6_bounded_agent_loop ["recipe"] (AgentExecutorConfig.mk true true 50 registeredToolNames) rfl

/-- C7: the I/O fan-out: fetch_recipes_from_urls gathers exactly one
independent fetch_recipe_from_url task per URL, in order, each page load
carrying the per-call 60-second timeout, and extract_ingredients gathers
exactly one extraction model call per recipe text, in order. -/
theorem c7_concurrent_fanout (extractText : String → String)
    (outcomes : String → FetchOutcome) (urls : List String)
    (oracle : String → IngredientsOutput) (recipe_texts : List String) :
    (fetch_recipes_from_urls extractText outcomes urls).length = urls.length ∧
    (∀ i : Nat, (fetch_recipes_from_urls extractText outcomes urls)[i]? =
      (urls[i]?).map (fun url => fetch_recipe_from_url extractText (outcomes url) url)) ∧
    page_goto_timeout_ms = 60 * 1000 ∧
    (extract_ingredients oracle recipe_texts).2.length = recipe_texts.length ∧
    (∀ i : Nat, ((extract_ingredients oracle recipe_texts).1)[i]? =
      (recipe_texts[i]?).map oracle) := by
  exact ⟨List.length_map _ _, fun i => List.getElem?_map .., rfl, rfl,
    fun i => List.getElem?_map ..⟩

/-- A list maps to itself under Forall₂ of a per-element relation with its image. -/
theorem forall₂_map_self {α : Type} (g : α → α) (R : α → α → Prop)
    (h : ∀ x, R x (g x)) : ∀ l : List α, List.Forall₂ R l (l.map g)
  | [] => List.Forall₂.nil
  | x :: l => List.Forall₂.cons (h x) (forall₂_map_self g R h l)

/-- applyNameMap keeps quantity and unit, and changes the name only when the
original name occurs as a key of the mapping. -/
theorem applyNameMap_frame (m : List (String × String)) (a : Ingredient) :
    (applyNameMap m a).quantity = a.quantity ∧ (applyNameMap m a).unit = a.unit ∧
    ((applyNameMap m a).name ≠ a.name → a.name ∈ m.map Prod.fst) := by
  unfold applyNameMap
  cases hl : dictLookup m a.name with
  | none => exact ⟨rfl, rfl, fun hne => absurd rfl hne⟩
  | some t =>
    refine ⟨rfl, rfl, fun _ => ?_⟩
    unfold dictLookup at hl
    obtain ⟨p, hp, _⟩ := Option.map_eq_some'.mp hl
    have hkey := List.find?_some hp
    have hmem : p ∈ m.reverse := List.mem_of_find?_eq_some hp
    rw [List.mem_reverse] at hmem
    exact List.mem_map.mpr ⟨p, hmem, by simpa using hkey⟩

/-- C2 counterexample: extract_ingredients dispatches one model call per
recipe text, so with two recipe texts it makes two model calls, not one. -/
theorem c2_counterexample_extract_two_calls :
    ((extract_ingredients (fun _ => IngredientsOutput.mk [])
      ["recipe one", "recipe two"]).2).length ≠ 1 := by
  decide

/-- C2 amended: each of the three tools sends schema-constrained prompts, with
this many model calls per invocation: extract_ingredients one per recipe text;
unify_ingredient_names exactly one, except zero when the input holds no
ingredients; consolidate_units exactly one whenever its validation passes. -/
theorem c2_model_call_counts
    (eOracle : String → IngredientsOutput) (recipe_texts : List String)
    (uOracle : String → List (String × String)) (ingredient_list : List IngredientsOutput)
    (cOracle : String → Except PyError ConsolidatedIngredientOutput) :
    ((extract_ingredients eOracle recipe_texts).2).length = recipe_texts.length ∧
    ((unify_ingredient_names uOracle ingredient_list).2).length =
      (if ingredient_list.flatMap (·.ingredients) = [] then 0 else 1) ∧
    (∀ (first : Ingredient) rest,
      (∀ ing ∈ first :: rest, ing.name.toLower = first.name.toLower) →
      ((consolidate_units cOracle (first :: rest)).2).length = 1) := by
  refine ⟨rfl, ?_, ?_⟩
  · by_cases h : ingredient_list.flatMap (·.ingredients) = []
    · simp [unify_ingredient_names, h]
    · simp [unify_ingredient_names, h, List.dedup_eq_nil]
  · intro first rest h
    rw [consolidate_units_proceeds cOracle first rest h]
    rfl

/-- C2 witness: a valid one-element consolidation performs exactly one call. -/
theorem c2_model_call_counts_witness :
    ((consolidate_units (fun _ => Except.error (.other "parse failure"))
      [Ingredient.mk "Mleko" "1" "carton"]).2).length = 1 :=
  (c2_model_call_counts (fun _ => IngredientsOutput.mk []) [] (fun _ => []) []
    (fun _ => Except.error (.other "parse failure"))).2.2
    (Ingredient.mk "Mleko" "1" "carton") []
    (by
      intro ing hing
      rcases List.mem_cons.mp hing with rfl | hing
      · rfl
      · exact absurd hing (List.not_mem_nil ing))

/-- C9: unify_ingredient_names changes only name fields: the recipe count, the
per-recipe ingredient counts, and every quantity and unit are unchanged (the
two nested Forall₂ imply the length equalities); a name changes only when it
occurs as an original_name in the model's returned mapping; and an input with
no ingredients at all is returned unchanged with no model call. -/
theorem c9_unify_frame (oracle : String → List (String × String))
    (ingredient_list : List IngredientsOutput) :
    (ingredient_list.flatMap (·.ingredients) = [] →
      unify_ingredient_names oracle ingredient_list = (ingredient_list, [])) ∧
    List.Forall₂ (fun ro ro' =>
        List.Forall₂ (fun a b =>
            b.quantity = a.quantity ∧ b.unit = a.unit ∧
            (b.name ≠ a.name →
              a.name ∈ (oracle (unify_payload ingredient_list)).map Prod.fst))
          ro.ingredients ro'.ingredients)
      ingredient_list (unify_ingredient_names oracle ingredient_list).1 := by
  constructor
  · intro h
    simp [unify_ingredient_names, h]
  · unfold unify_ingredient_names
    by_cases h :
        ((((ingredient_list.flatMap (·.ingredients)).map (·.name)).dedup).isEmpty = true)
    · rw [if_pos h]
      refine List.forall₂_same.mpr fun ro _ => List.forall₂_same.mpr fun a _ => ?_
      exact ⟨rfl, rfl, fun hne => absurd rfl hne⟩
    · rw [if_neg h]
      apply forall₂_map_self
      intro ro
      apply forall₂_map_self
      intro a
      exact applyNameMap_frame (oracle (unify_payload ingredient_list)) a

/-- C9 witness: a recipe list with no ingredients is returned unchanged and
without a model call. -/
theorem c9_unify_frame_witness :
    unify_ingredient_names (fun _ => [("a", "b")]) [IngredientsOutput.mk []] =
      ([IngredientsOutput.mk []], []) :=
  (c9_unify_frame (fun _ => [("a", "b")]) [IngredientsOutput.mk []]).1 rfl

/-- Stability of the stable descending sort in select_examples: within each
score class, the sorted list keeps exactly the input's elements in the input's
order. -/
theorem insertionSort_filter_scoreClass (tw : List String)
    (examples : List PromptExample) (s : Nat) :
    (List.insertionSort (scoreGe tw) examples).filter
        (fun e => decide (score_example tw e = s)) =
      examples.filter (fun e => decide (score_example tw e = s)) := by
  have hclass : ∀ x ∈ examples.filter (fun e => decide (score_example tw e = s)),
      score_example tw x = s := by
    intro x hx
    exact of_decide_eq_true (List.mem_filter.mp hx).2
  have hpair : (examples.filter (fun e => decide (score_example tw e = s))).Pairwise
      (scoreGe tw) := by
    refine List.pairwise_of_forall_mem_list fun a ha b hb => ?_
    unfold scoreGe
    rw [hclass a ha, hclass b hb]
  have hsub : (examples.filter (fun e => decide (score_example tw e = s))).Sublist
      (List.insertionSort (scoreGe tw) examples) :=
    List.sublist_insertionSort hpair (List.filter_sublist examples)
  have hsub2 : (examples.filter (fun e => decide (score_example tw e = s))).Sublist
      ((List.insertionSort (scoreGe tw) examples).filter
        (fun e => decide (score_example tw e = s))) := by
    have h2 := hsub.filter (fun e => decide (score_example tw e = s))
    rwa [List.filter_eq_self.mpr (fun x hx => (List.mem_filter.mp hx).2)] at h2
  have hperm : ((List.insertionSort (scoreGe tw) examples).filter
        (fun e => decide (score_example tw e = s))).Perm
      (examples.filter (fun e => decide (score_example tw e = s))) :=
    (List.perm_insertionSort (scoreGe tw) examples).filter _
  exact (hsub2.eq_of_length hperm.length_eq.symm).symm

/-- C10: select_examples is a pure function of its arguments; it returns the
first n of a stable descending sort of the examples by keyword-overlap score,
hence: min n (length) elements (min 3 with the default), a sub-permutation of
the input (positions are never duplicated), pairwise non-increasing scores,
and within every score class the sorted order is exactly the input order. -/
theorem c10_select_examples (target_input : String) (examples : List PromptExample)
    (n : Nat) :
    (select_examples target_input examples n).length = min n examples.length ∧
    (select_examples target_input examples n).Subperm examples ∧
    (select_examples target_input examples n).Pairwise (scoreGe (wordSet target_input)) ∧
    (∀ s : Nat,
      (List.insertionSort (scoreGe (wordSet target_input)) examples).filter
          (fun e => decide (score_example (wordSet target_input) e = s)) =
        examples.filter (fun e => decide (score_example (wordSet target_input) e = s))) ∧
    select_examples_default target_input examples = select_examples target_input examples 3 := by
  refine ⟨?_, ?_, ?_, fun s => insertionSort_filter_scoreClass (wordSet target_input) examples s,
    rfl⟩
  · unfold select_examples
    rw [List.length_take,
      (List.perm_insertionSort (scoreGe (wordSet target_input)) examples).length_eq]
  · exact ((List.take_sublist n _).subperm).trans
      (List.perm_insertionSort (scoreGe (wordSet target_input)) examples).subperm
  · exact (List.sorted_insertionSort (scoreGe (wordSet target_input)) examples).sublist
      (List.take_sublist n _)

/-- Dictionary lookup on a cons cell. -/
theorem dictFind_cons (p : String × List Ingredient) (acc : List (String × List Ingredient))
    (n : String) :
    dictFind (p :: acc) n = if p.1 = n then some p.2 else dictFind acc n := by
  unfold dictFind
  by_cases h : p.1 = n
  · rw [List.find?_cons_of_pos _ (by simpa using h), if_pos h]
    rfl
  · rw [List.find?_cons_of_neg _ (by simpa using h), if_neg h]

/-- One defaultdict append step, seen through lookups: the appended
ingredient's own group gains it at the end; every other group is untouched. -/
theorem dictFind_dictAppend (x : Ingredient) (n : String) :
    ∀ acc : List (String × List Ingredient),
    dictFind (dictAppend acc x) n =
      if x.name = n then some ((dictFind acc n).getD [] ++ [x]) else dictFind acc n
  | [] => by
    by_cases hxn : x.name = n
    · rw [dictAppend, dictFind_cons, if_pos hxn, if_pos hxn]
      rfl
    · rw [dictAppend, dictFind_cons, if_neg hxn, if_neg hxn]
  | p :: acc => by
    by_cases hpx : p.1 = x.name
    · rw [dictAppend, if_pos hpx, dictFind_cons, dictFind_cons]
      by_cases hpn : p.1 = n
      · have hxn : x.name = n := hpx.symm.trans hpn
        rw [if_pos hpn, if_pos hxn, if_pos hpn]
        rfl
      · have hxn : ¬ x.name = n := fun h => hpn (hpx.trans h)
        rw [if_neg hpn, if_neg hxn, if_neg hpn]
    · rw [dictAppend, if_neg hpx, dictFind_cons, dictFind_cons]
      by_cases hpn : p.1 = n
      · have hxn : ¬ x.name = n := fun h => hpx (hpn.trans h.symm)
        rw [if_pos hpn, if_neg hxn, if_pos hpn]
      · rw [if_neg hpn, dictFind_dictAppend x n acc, if_neg hpn]

/-- Lookup after the whole grouping fold: an accumulated group is extended by
the input-order filter; a fresh name maps to exactly that filter. -/
theorem dictFind_foldl (n : String) :
    ∀ (l : List Ingredient) (acc : List (String × List Ingredient)),
    dictFind (l.foldl dictAppend acc) n =
      match dictFind acc n with
      | some v => some (v ++ l.filter (fun i => decide (i.name = n)))
      | none =>
        if l.any (fun i => decide (i.name = n)) then
          some (l.filter (fun i => decide (i.name = n)))
        else none
  | [], acc => by
    cases h : dictFind acc n <;> simp [h]
  | x :: l, acc => by
    rw [List.foldl_cons, dictFind_foldl n l (dictAppend acc x), dictFind_dictAppend]
    by_cases hxn : x.name = n
    · rw [if_pos hxn]
      cases h : dictFind acc n <;>
        simp [h, List.filter_cons, List.any_cons, hxn]
    · rw [if_neg hxn]
      cases h : dictFind acc n <;>
        simp [h, List.filter_cons, List.any_cons, hxn]

/-- Keys after one append step: the ingredient's name joins the key set. -/
theorem mem_keys_dictAppend (x : Ingredient) (m : String) :
    ∀ acc : List (String × List Ingredient),
    (m ∈ (dictAppend acc x).map Prod.fst ↔ m ∈ acc.map Prod.fst ∨ m = x.name)
  | [] => by simp [dictAppend]
  | p :: acc => by
    by_cases hpx : p.1 = x.name
    · rw [dictAppend, if_pos hpx]
      simp only [List.map_cons, List.mem_cons]
      constructor
      · exact Or.inl
      · rintro (h | rfl)
        · exact h
        · exact Or.inl hpx.symm
    · rw [dictAppend, if_neg hpx]
      simp only [List.map_cons, List.mem_cons, mem_keys_dictAppend x m acc]
      tauto

/-- One append step keeps the dict's keys pairwise distinct. -/
theorem keys_nodup_dictAppend (x : Ingredient) :
    ∀ acc : List (String × List Ingredient),
    (acc.map Prod.fst).Nodup → ((dictAppend acc x).map Prod.fst).Nodup
  | [] => fun _ => by simp [dictAppend]
  | p :: acc => by
    intro h
    rw [List.map_cons, List.nodup_cons] at h
    by_cases hpx : p.1 = x.name
    · rw [dictAppend, if_pos hpx, List.map_cons, List.nodup_cons]
      exact h
    · rw [dictAppend, if_neg hpx, List.map_cons, List.nodup_cons]
      refine ⟨?_, keys_nodup_dictAppend x acc h.2⟩
      rw [mem_keys_dictAppend x p.1 acc]
      rintro (hmem | heq)
      · exact h.1 hmem
      · exact hpx heq

/-- The grouping fold keeps the dict's keys pairwise distinct. -/
theorem keys_nodup_foldl :
    ∀ (l : List Ingredient) (acc : List (String × List Ingredient)),
    (acc.map Prod.fst).Nodup → ((l.foldl dictAppend acc).map Prod.fst).Nodup
  | [], _ => fun h => h
  | x :: l, acc => fun h =>
    keys_nodup_foldl l (dictAppend acc x) (keys_nodup_dictAppend x acc h)

/-- One append step adds exactly the appended ingredient to the dict's joined
contents, up to permutation. -/
theorem flatMap_snd_dictAppend (x : Ingredient) :
    ∀ acc : List (String × List Ingredient),
    ((dictAppend acc x).flatMap Prod.snd).Perm (x :: acc.flatMap Prod.snd)
  | [] => by simp [dictAppend]
  | p :: acc => by
    by_cases hpx : p.1 = x.name
    · rw [dictAppend, if_pos hpx]
      simp only [List.flatMap_cons]
      rw [List.append_assoc, List.singleton_append]
      exact List.perm_middle
    · rw [dictAppend, if_neg hpx]
      simp only [List.flatMap_cons]
      exact (List.Perm.append_left p.2 (flatMap_snd_dictAppend x acc)).trans List.perm_middle

/-- The grouping fold conserves the ingredients: the joined dict contents are a
permutation of the accumulated contents plus the folded list. -/
theorem flatMap_snd_foldl :
    ∀ (l : List Ingredient) (acc : List (String × List Ingredient)),
    ((l.foldl dictAppend acc).flatMap Prod.snd).Perm (acc.flatMap Prod.snd ++ l)
  | [], acc => by simp
  | x :: l, acc => by
    rw [List.foldl_cons]
    exact (flatMap_snd_foldl l (dictAppend acc x)).trans
      (((flatMap_snd_dictAppend x acc).append_right l).trans List.perm_middle.symm)

/-- C8: group_by_ingredient_name builds a dictionary whose keys are pairwise
distinct; looking up any name yields the input-order filter of the flattened
input by that name when the name occurs (every ingredient sits, unmodified,
under the key equal to its own name, groups preserve input order) and nothing
otherwise; and the concatenation of all groups is a permutation of the
flattened input (no ingredient dropped or duplicated). -/
theorem c8_group_by_ingredient_name (ingredients_list : List IngredientsOutput) :
    ((group_by_ingredient_name ingredients_list).map Prod.fst).Nodup ∧
    (∀ n : String,
      dictFind (group_by_ingredient_name ingredients_list) n =
        if (ingredients_list.flatMap (·.ingredients)).any (fun i => decide (i.name = n)) then
          some ((ingredients_list.flatMap (·.ingredients)).filter (fun i => decide (i.name = n)))
        else none) ∧
    ((group_by_ingredient_name ingredients_list).flatMap Prod.snd).Perm
      (ingredients_list.flatMap (·.ingredients)) := by
  refine ⟨?_, ?_, ?_⟩
  · exact keys_nodup_foldl (ingredients_list.flatMap (·.ingredients)) [] (by simp)
  · intro n
    exact dictFind_foldl n (ingredients_list.flatMap (·.ingredients)) []
  · have h := flatMap_snd_foldl (ingredients_list.flatMap (·.ingredients)) []
    simpa using h

end ListicLite
